import Mathlib

/-!
Verification of the batched CDC ingestion pipeline
(`src/consumer/kafka_to_minio.py`) against its specification.

The Python source is shallowly embedded: JSON values become an inductive
`Json`, Python dictionary access (`dict.get`) becomes `pyDictGet` returning
`Except PyErr` (a non-mapping receiver raises `AttributeError`), truthiness
becomes `truthy`, and the stateful flush `write_to_minio` becomes an explicit
state-passing function over a filesystem and an object-store map.
-/

/-- A JSON value as produced by `json.loads` on a Kafka record value.
Python `None` (both JSON `null` and an absent-key default) is `Json.null`. -/
inductive Json where
  | null : Json
  | bool (b : Bool) : Json
  | num (n : Int) : Json
  | str (s : String) : Json
  | arr (xs : List Json) : Json
  | obj (kvs : List (String × Json)) : Json

mutual

/-- Structural equality test for `Json` (Python `==` on parsed JSON values). -/
def Json.beq : Json → Json → Bool
  | .null, .null => true
  | .bool a, .bool b => a == b
  | .num a, .num b => a == b
  | .str a, .str b => a == b
  | .arr xs, .arr ys => Json.beqList xs ys
  | .obj xs, .obj ys => Json.beqKVs xs ys
  | _, _ => false

/-- Elementwise equality test for JSON arrays. -/
def Json.beqList : List Json → List Json → Bool
  | [], [] => true
  | x :: xs, y :: ys => Json.beq x y && Json.beqList xs ys
  | _, _ => false

/-- Elementwise equality test for JSON object field lists. -/
def Json.beqKVs : List (String × Json) → List (String × Json) → Bool
  | [], [] => true
  | (k, v) :: xs, (l, w) :: ys => k == l && Json.beq v w && Json.beqKVs xs ys
  | _, _ => false

end

/-- Strong induction on the size of a `Json` value. -/
theorem Json.sizeInd (motive : Json → Prop)
    (step : ∀ a : Json, (∀ b : Json, sizeOf b < sizeOf a → motive b) → motive a) :
    ∀ a : Json, motive a := by
  have H : ∀ n : Nat, ∀ a : Json, sizeOf a < n → motive a := by
    intro n
    induction n with
    | zero => intro a h; omega
    | succ n ih => intro a h; exact step a fun b hb => ih b (by omega)
  exact fun a => H (sizeOf a + 1) a (by omega)

theorem Json.beqList_iff (xs : List Json)
    (ih : ∀ v, v ∈ xs → ∀ w : Json, (Json.beq v w = true ↔ v = w)) :
    ∀ ys : List Json, (Json.beqList xs ys = true ↔ xs = ys) := by
  induction xs with
  | nil => intro ys; cases ys <;> simp [Json.beqList]
  | cons x xs ihx =>
    intro ys
    cases ys with
    | nil => simp [Json.beqList]
    | cons y ys =>
      have hx := ih x (by simp) y
      have hxs := ihx (fun v hv w => ih v (by simp [hv]) w) ys
      simp [Json.beqList, hx, hxs]

theorem Json.beqKVs_iff (xs : List (String × Json))
    (ih : ∀ k v, (k, v) ∈ xs → ∀ w : Json, (Json.beq v w = true ↔ v = w)) :
    ∀ ys : List (String × Json), (Json.beqKVs xs ys = true ↔ xs = ys) := by
  induction xs with
  | nil => intro ys; cases ys <;> simp [Json.beqKVs]
  | cons x xs ihx =>
    intro ys
    cases ys with
    | nil => simp [Json.beqKVs]
    | cons y ys =>
      obtain ⟨k, v⟩ := x
      obtain ⟨l, w⟩ := y
      have hv := ih k v (by simp) w
      have hxs := ihx (fun k v hkv w => ih k v (by simp [hkv]) w) ys
      simp [Json.beqKVs, hv, hxs, and_assoc]

theorem Json.beq_iff : ∀ a b : Json, (Json.beq a b = true ↔ a = b) := by
  intro a
  induction a using Json.sizeInd with
  | step a IH =>
    intro b
    cases a with
    | null => cases b <;> simp [Json.beq]
    | bool x => cases b <;> simp [Json.beq]
    | num x => cases b <;> simp [Json.beq]
    | str x => cases b <;> simp [Json.beq]
    | arr xs =>
      cases b <;> simp [Json.beq]
      case arr ys =>
        exact Json.beqList_iff xs
          (fun v hv w => IH v (by
            have h1 : sizeOf v < sizeOf xs := List.sizeOf_lt_of_mem hv
            simp only [Json.arr.sizeOf_spec]
            omega) w) ys
    | obj kvs =>
      cases b <;> simp [Json.beq]
      case obj ys =>
        exact Json.beqKVs_iff kvs
          (fun k v hkv w => IH v (by
            have h1 : sizeOf (k, v) < sizeOf kvs := List.sizeOf_lt_of_mem hkv
            have h2 : sizeOf (k, v) = 1 + sizeOf k + sizeOf v := rfl
            simp only [Json.obj.sizeOf_spec]
            omega) w) ys

instance : DecidableEq Json := fun a b => decidable_of_iff _ (Json.beq_iff a b)

/-- Python exceptions that the embedded fragments can raise. -/
inductive PyErr where
  | attributeError : PyErr
  | keyError : PyErr
deriving DecidableEq

/-- First-match lookup in an association list modelling a Python dict. -/
def jsonLookup : List (String × Json) → String → Option Json
  | [], _ => none
  | (k, v) :: rest, key => if k = key then some v else jsonLookup rest key

/-- `x.get(key, dflt)` in Python: returns the stored value (which may be
`null`) when the key is present, the default when absent, and raises
`AttributeError` when the receiver is not a mapping. -/
def pyDictGet (j : Json) (key : String) (dflt : Json) : Except PyErr Json :=
  match j with
  | .obj kvs => .ok ((jsonLookup kvs key).getD dflt)
  | _ => .error .attributeError

/-- Python truthiness of a value, as used by `if record:`. -/
def truthy : Json → Bool
  | .null => false
  | .bool b => b
  | .num n => n != 0
  | .str s => s != ""
  | .arr xs => !xs.isEmpty
  | .obj kvs => !kvs.isEmpty

deriving instance DecidableEq for Except

/-- Outcome of the extraction step of the main consumption loop. -/
inductive RowOutcome where
  | hasRow (r : Json) : RowOutcome
  | deleteOp : RowOutcome
  | empty : RowOutcome
deriving DecidableEq

/-- Lines 112-125 of `kafka_to_minio.py`:
`payload = event.get("payload", {})`, `record = payload.get("after")`,
`if record: ... append(record)`, else `payload.get("op")` compared to `"d"`.
Returns what the loop body decides for one record value: the row to append,
the detected delete, or the no-row outcome. -/
def extract (event : Json) : Except PyErr RowOutcome := do
  let payload ← pyDictGet event "payload" (.obj [])
  let record ← pyDictGet payload "after" .null
  if truthy record then
    return .hasRow record
  else
    let op ← pyDictGet payload "op" .null
    if op = Json.str "d" then
      return .deleteOp
    else
      return .empty

example : extract (Json.obj [("payload", Json.obj [("after", Json.obj [("x", Json.num 1)])])])
    = Except.ok (RowOutcome.hasRow (Json.obj [("x", Json.num 1)])) := by decide

example : extract (Json.obj [("payload", Json.obj [("after", Json.obj [])])])
    = Except.ok RowOutcome.empty := by decide

example : extract (Json.obj [("payload", Json.null)])
    = Except.error PyErr.attributeError := by decide

example : extract (Json.obj [("payload", Json.obj [("op", Json.str "d")])])
    = Except.ok RowOutcome.deleteOp := by decide

example : extract (Json.obj []) = Except.ok RowOutcome.empty := by decide

/-- One Kafka record as seen by the loop: its topic and deserialized value. -/
structure Msg where
  topic : String
  value : Json
deriving DecidableEq

/-- The per-topic buffer map (the `buffer` dict, lines 61-65). -/
abbrev Buffers := List (String × List Json)

/-- A call to `write_to_minio` made by the loop: table name and rows passed. -/
abbrev FlushCall := String × List Json

/-- `buffer[topic]` read access; `none` models a `KeyError`. -/
def bufGet : Buffers → String → Option (List Json)
  | [], _ => none
  | (k, v) :: rest, t => if k = t then some v else bufGet rest t

/-- `buffer[topic] = v` on an existing key. -/
def bufSet : Buffers → String → List Json → Buffers
  | [], _, _ => []
  | (k, w) :: rest, t, v => if k = t then (k, v) :: rest else (k, w) :: bufSet rest t v

/-- `str.split('.')` on the character list of a string: cuts at every dot;
`acc` holds the reversed characters of the current segment. -/
def splitDot : List Char → List Char → List (List Char)
  | [], acc => [acc.reverse]
  | c :: rest, acc =>
    if c = '.' then acc.reverse :: splitDot rest [] else splitDot rest (c :: acc)

/-- `topic.split('.')[-1]` (lines 129 and 145). -/
def tableName (topic : String) : String :=
  String.mk ((splitDot topic.data []).getLastD [])

/-- Lines 107-130: the body of the inner message loop for one record:
extraction, routing of a truthy row into `buffer[topic]`, and the
per-message threshold check `len(buffer[topic]) >= batch_size` with its
immediate `write_to_minio` call and buffer reset.  Flush calls are recorded
in the second state component. -/
def processMessage (N : Nat) (st : Buffers × List FlushCall) (msg : Msg) :
    Except PyErr (Buffers × List FlushCall) := do
  let out ← extract msg.value
  let bufs1 ←
    match out with
    | RowOutcome.hasRow r =>
      match bufGet st.1 msg.topic with
      | some cur => Except.ok (bufSet st.1 msg.topic (cur ++ [r]))
      | none => Except.error PyErr.keyError
    | _ => Except.ok st.1
  match bufGet bufs1 msg.topic with
  | none => Except.error PyErr.keyError
  | some cur =>
    if N ≤ cur.length then
      Except.ok (bufSet bufs1 msg.topic [], st.2 ++ [(tableName msg.topic, cur)])
    else
      Except.ok (bufs1, st.2)

/-- The flush threshold (`batch_size = 50`, line 60). -/
def batch_size : Nat := 50

/-- Lines 106-130: processing of one non-empty poll result (its records
flattened in iteration order). -/
def processBatch (N : Nat) (msgs : List Msg) (bufs : Buffers) :
    Except PyErr (Buffers × List FlushCall) :=
  msgs.foldlM (processMessage N) (bufs, [])

/-- Modelled from the spec: §4.4 `Polling` says "After processing all
records in the poll result, for every topic whose Buffer `is_full()`, call
Buffer.drain() and pass the result to Flush Writer" — i.e. every record is
routed first, and threshold flushes happen only afterwards, per topic in
buffer-map order.  Used only for comparison against `processBatch` in
claim C6. -/
def processBatchSpec (N : Nat) (msgs : List Msg) (bufs : Buffers) :
    Except PyErr (Buffers × List FlushCall) := do
  let bufs1 ← msgs.foldlM (fun b msg => do
    let out ← extract msg.value
    match out with
    | RowOutcome.hasRow r =>
      match bufGet b msg.topic with
      | some cur => Except.ok (bufSet b msg.topic (cur ++ [r]))
      | none => Except.error PyErr.keyError
    | _ => Except.ok b) bufs
  Except.ok
    (bufs1.map fun p => if N ≤ p.2.length then (p.1, ([] : List Json)) else p,
     (bufs1.filter fun p => decide (N ≤ p.2.length)).map fun p => (tableName p.1, p.2))

/-- Lines 116-130 restricted to the buffer of one topic, rows already
extracted: each arriving row is appended (`buffer[topic].append(record)`),
and whenever the buffer length reaches the threshold the buffer is drained:
passed whole to the flush writer and reset to `[]` (lines 128-130).
Returns the drained batches in order and the leftover buffer contents. -/
def bufferRun (N : Nat) : List Json → List Json → List (List Json) × List Json
  | [], buf => ([], buf)
  | r :: rest, buf =>
    let b := buf ++ [r]
    if N ≤ b.length then
      ((b :: (bufferRun N rest []).1), (bufferRun N rest []).2)
    else
      bufferRun N rest b

/-- Lines 140-149 (the `finally` block): iterate the buffer map in order;
for every non-empty buffer call `write_to_minio` with its full contents;
after the loop, `consumer.close()`.  `uploadOk` says whether the flush of a
given table succeeds; a failing flush raises out of the `finally` block, so
the remaining buffers are not flushed and `consumer.close()` — the returned
`Bool` — is never executed. -/
def finalDrain (uploadOk : String → Bool) : Buffers → List FlushCall × Bool
  | [] => ([], true)
  | (t, rs) :: rest =>
    if rs.isEmpty then finalDrain uploadOk rest
    else if uploadOk (tableName t) then
      let (cs, closed) := finalDrain uploadOk rest
      ((tableName t, rs) :: cs, closed)
    else
      ([], false)

/-- Local staging filesystem: path ↦ serialized rows. -/
abbrev Fs := String → Option (List Json)

/-- Object store contents of the bucket: key ↦ object contents. -/
abbrev Store := String → Option (List Json)

/-- Writing (or overwriting) a file. -/
def fsSet (fs : Fs) (p : String) (v : List Json) : Fs :=
  fun q => if q = p then some v else fs q

/-- `os.remove`. -/
def fsRemove (fs : Fs) (p : String) : Fs :=
  fun q => if q = p then none else fs q

/-- Stage of `write_to_minio` at which an exception is raised. -/
inductive FlushStage where
  | upload : FlushStage
  | cleanup : FlushStage
deriving DecidableEq

/-- Line 52: the local staging path `f'{table_name}_{date_str}.parquet'`,
built from the table name and the current date only. -/
def stagingPath (table date : String) : String :=
  table ++ "_" ++ date ++ ".parquet"

/-- The `w` low decimal digits of `n`, as characters, zero-padded: the
fixed-width numeric fields of `strftime`. -/
def padDigits : Nat → Nat → List Char
  | 0, _ => []
  | w + 1, n => padDigits w (n / 10) ++ [Nat.digitChar (n % 10)]

/-- `datetime.now().strftime("%H%M%S%f")`: hour, minute and second as two
zero-padded decimal digits each, microseconds as six. -/
def timeCode (h m s f : Nat) : List Char :=
  padDigits 2 h ++ padDigits 2 m ++ padDigits 2 s ++ padDigits 6 f

/-- Line 54: the object-store key
`f'{table_name}/date={date_str}/{table_name}_{now:%H%M%S%f}.parquet'`. -/
def s3Key (table date : String) (h m s f : Nat) : String :=
  table ++ "/date=" ++ date ++ "/" ++ table ++ "_" ++
    String.mk (timeCode h m s f) ++ ".parquet"

/-- Lines 47-57: `write_to_minio(table_name, records)`.  `date` is the
`datetime.now()` date (line 51); `h`, `m`, `s`, `f` are the time fields of
the `datetime.now()` call on line 54; `uploadOk` / `removeOk` say whether
`s3.upload_file` / `os.remove` succeed.  Returns the final filesystem, the
final object-store contents, and the stage of the raised exception, if
any. -/
def write_to_minio (table date : String) (h m s f : Nat) (uploadOk removeOk : Bool)
    (records : List Json) (fs : Fs) (store : Store) :
    Fs × Store × Option FlushStage :=
  if records.isEmpty then (fs, store, none)
  else
    let path := stagingPath table date
    let fs1 := fsSet fs path records
    let key := s3Key table date h m s f
    if uploadOk then
      let store1 : Store := fun q => if q = key then some records else store q
      if removeOk then
        (fsRemove fs1 path, store1, none)
      else
        (fs1, store1, some FlushStage.cleanup)
    else
      (fs1, store, some FlushStage.upload)

example : tableName "banking_server.public.customers" = "customers" := by decide

example : s3Key "t" "2025-01-02" 1 2 3 45 = "t/date=2025-01-02/t_010203000045.parquet" := by decide

example : stagingPath "customers" "2025-01-02" = "customers_2025-01-02.parquet" := rfl

theorem isEmpty_false_of_ne_nil {l : List Json} (h : l ≠ []) : l.isEmpty = false := by
  cases l with
  | nil => exact absurd rfl h
  | cons a t => rfl

/-- C1: if the upload raises, `write_to_minio` propagates the error
(stage `upload`), the staging file is not deleted — the filesystem is
exactly the post-serialization state, with the staging artifact still
holding the batch under `stagingPath` — and the object store is
unchanged. -/
theorem upload_failure_preserves_staging
    (table date : String) (h m s f : Nat) (removeOk : Bool)
    (records : List Json) (fs : Fs) (store : Store)
    (hne : records ≠ []) :
    write_to_minio table date h m s f false removeOk records fs store
      = (fsSet fs (stagingPath table date) records, store, some FlushStage.upload)
    ∧ (write_to_minio table date h m s f false removeOk records fs store).1
        (stagingPath table date) = some records := by
  have hemp := isEmpty_false_of_ne_nil hne
  refine ⟨by simp [write_to_minio, hemp], ?_⟩
  simp [write_to_minio, hemp, fsSet]

/-- C1 witness: a concrete failed upload of one customers row. -/
theorem upload_failure_preserves_staging_w :
    write_to_minio "customers" "2025-01-02" 1 2 3 4 false true
        [Json.obj [("id", Json.num 7)]] (fun _ => none) (fun _ => none)
      = (fsSet (fun _ => none) (stagingPath "customers" "2025-01-02")
          [Json.obj [("id", Json.num 7)]], (fun _ => none), some FlushStage.upload)
    ∧ (write_to_minio "customers" "2025-01-02" 1 2 3 4 false true
        [Json.obj [("id", Json.num 7)]] (fun _ => none) (fun _ => none)).1
        (stagingPath "customers" "2025-01-02") = some [Json.obj [("id", Json.num 7)]] :=
  upload_failure_preserves_staging "customers" "2025-01-02" 1 2 3 4 true
    [Json.obj [("id", Json.num 7)]] (fun _ => none) (fun _ => none) (by decide)

/-- C8 counterexample: with a successful upload and a failing `os.remove`,
the flush does not return successfully — `write_to_minio` raises at the
cleanup stage (the `os.remove` call on line 56 is not guarded). -/
theorem cleanup_failure_fails_flush_cex :
    (write_to_minio "customers" "2025-01-02" 1 2 3 4 true false
        [Json.obj [("id", Json.num 7)]] (fun _ => none) (fun _ => none)).2.2
      = some FlushStage.cleanup
    ∧ (write_to_minio "customers" "2025-01-02" 1 2 3 4 true false
        [Json.obj [("id", Json.num 7)]] (fun _ => none) (fun _ => none)).2.2
      ≠ none := by
  exact ⟨rfl, by decide⟩

/-- C8 amended: after a successful upload, a failing deletion of the local
staging file makes the whole flush raise (the cleanup error propagates to
the caller); the uploaded object is unaffected — it is stored under its
key — and the staging file is left in place. -/
theorem cleanup_failure_propagates
    (table date : String) (h m s f : Nat) (records : List Json) (fs : Fs) (store : Store)
    (hne : records ≠ []) :
    write_to_minio table date h m s f true false records fs store
      = (fsSet fs (stagingPath table date) records,
         fun q => if q = s3Key table date h m s f then some records else store q,
         some FlushStage.cleanup)
    ∧ (write_to_minio table date h m s f true false records fs store).2.1
        (s3Key table date h m s f) = some records := by
  have hemp := isEmpty_false_of_ne_nil hne
  refine ⟨by simp [write_to_minio, hemp], ?_⟩
  simp [write_to_minio, hemp]

/-- C8 amended, witness: concrete flush with failing cleanup. -/
theorem cleanup_failure_propagates_w :
    write_to_minio "customers" "2025-01-02" 1 2 3 4 true false
        [Json.obj [("id", Json.num 7)]] (fun _ => none) (fun _ => none)
      = (fsSet (fun _ => none) (stagingPath "customers" "2025-01-02")
          [Json.obj [("id", Json.num 7)]],
         fun q => if q = s3Key "customers" "2025-01-02" 1 2 3 4
           then some [Json.obj [("id", Json.num 7)]] else none,
         some FlushStage.cleanup)
    ∧ (write_to_minio "customers" "2025-01-02" 1 2 3 4 true false
        [Json.obj [("id", Json.num 7)]] (fun _ => none) (fun _ => none)).2.1
        (s3Key "customers" "2025-01-02" 1 2 3 4) = some [Json.obj [("id", Json.num 7)]] :=
  cleanup_failure_propagates "customers" "2025-01-02" 1 2 3 4
    [Json.obj [("id", Json.num 7)]] (fun _ => none) (fun _ => none) (by decide)

/-- C9: the staging path is `{table}_{date}.parquet`, a function of the
table name and current date only; a flush touches no other path; a flush
whose upload fails leaves the batch at that path; and the next flush of the
same table on the same day serializes to the very same path, overwriting
the retained artifact. -/
theorem staging_path_reused_and_overwritten
    (table date : String) (h1 m1 s1 f1 h2 m2 s2 f2 : Nat) (ro1 ro2 : Bool)
    (rows1 rows2 : List Json) (fs : Fs) (store store2 : Store)
    (hne1 : rows1 ≠ []) (hne2 : rows2 ≠ []) :
    stagingPath table date = table ++ "_" ++ date ++ ".parquet"
    ∧ (write_to_minio table date h1 m1 s1 f1 false ro1 rows1 fs store).1
        (stagingPath table date) = some rows1
    ∧ (∀ q, q ≠ stagingPath table date →
        (write_to_minio table date h1 m1 s1 f1 false ro1 rows1 fs store).1 q = fs q)
    ∧ (write_to_minio table date h2 m2 s2 f2 false ro2 rows2
        (write_to_minio table date h1 m1 s1 f1 false ro1 rows1 fs store).1 store2).1
        (stagingPath table date) = some rows2 := by
  have hemp1 := isEmpty_false_of_ne_nil hne1
  have hemp2 := isEmpty_false_of_ne_nil hne2
  refine ⟨rfl, by simp [write_to_minio, hemp1, fsSet], ?_, ?_⟩
  · intro q hq
    simp [write_to_minio, hemp1, fsSet, hq]
  · simp [write_to_minio, hemp1, hemp2, fsSet]

/-- C9 witness: two concrete same-day flushes of the same table. -/
theorem staging_path_reused_and_overwritten_w :
    stagingPath "accounts" "2025-01-02" = "accounts" ++ "_" ++ "2025-01-02" ++ ".parquet"
    ∧ (write_to_minio "accounts" "2025-01-02" 1 2 3 4 false true
        [Json.num 1] (fun _ => none) (fun _ => none)).1
        (stagingPath "accounts" "2025-01-02") = some [Json.num 1]
    ∧ (∀ q, q ≠ stagingPath "accounts" "2025-01-02" →
        (write_to_minio "accounts" "2025-01-02" 1 2 3 4 false true
          [Json.num 1] (fun _ => none) (fun _ => none)).1 q = none)
    ∧ (write_to_minio "accounts" "2025-01-02" 5 6 7 8 false true [Json.num 2]
        (write_to_minio "accounts" "2025-01-02" 1 2 3 4 false true
          [Json.num 1] (fun _ => none) (fun _ => none)).1 (fun _ => none)).1
        (stagingPath "accounts" "2025-01-02") = some [Json.num 2] :=
  staging_path_reused_and_overwritten "accounts" "2025-01-02" 1 2 3 4 5 6 7 8 true true
    [Json.num 1] [Json.num 2] (fun _ => none) (fun _ => none) (fun _ => none)
    (by decide) (by decide)

/-- Conservation of the single-topic buffer run: the drained batches,
concatenated, followed by the leftover buffer, are exactly the initial
buffer contents followed by the appended rows, in order. -/
theorem bufferRun_conservation (N : Nat) (rows : List Json) :
    ∀ buf : List Json,
      (bufferRun N rows buf).1.join ++ (bufferRun N rows buf).2 = buf ++ rows := by
  induction rows with
  | nil => intro buf; simp [bufferRun]
  | cons r rest ih =>
    intro buf
    by_cases hN : N ≤ (buf ++ [r]).length
    · have h0 := ih []
      simp only [bufferRun, hN, if_pos, List.join_cons] at *
      simp only [List.append_assoc, h0]
      simp
    · have hb := ih (buf ++ [r])
      simp only [bufferRun, hN, if_neg, not_false_iff] at *
      simp only [hb]
      simp

/-- The threshold scenario: starting from an empty buffer, a run of exactly
`N` rows (with `0 < N`) triggers exactly one drain, carrying exactly those
rows, and the buffer is empty immediately afterwards. -/
theorem bufferRun_exact (N : Nat) :
    ∀ rows buf : List Json, rows ≠ [] → buf.length + rows.length = N →
      bufferRun N rows buf = ([buf ++ rows], []) := by
  intro rows
  induction rows with
  | nil => intro buf h; exact absurd rfl h
  | cons r rest ih =>
    intro buf _ hlen
    cases rest with
    | nil =>
      have hN : N ≤ (buf ++ [r]).length := by
        simp at hlen ⊢
        omega
      rw [show bufferRun N [r] buf
          = (if N ≤ (buf ++ [r]).length
              then (((buf ++ [r]) :: (bufferRun N [] []).1), (bufferRun N [] []).2)
              else bufferRun N [] (buf ++ [r])) from rfl]
      rw [if_pos hN]
      simp [bufferRun]
    | cons r2 rest2 =>
      have hlt : ¬ N ≤ (buf ++ [r]).length := by
        simp at hlen ⊢
        omega
      have h2 := ih (buf ++ [r]) (by simp) (by simp at hlen ⊢; omega)
      rw [show bufferRun N (r :: r2 :: rest2) buf
          = (if N ≤ (buf ++ [r]).length
              then (((buf ++ [r]) :: (bufferRun N (r2 :: rest2) []).1),
                    (bufferRun N (r2 :: rest2) []).2)
              else bufferRun N (r2 :: rest2) (buf ++ [r])) from rfl]
      rw [if_neg hlt, h2]
      simp

/-- C5: for every sequence of rows routed into one topic's buffer, the
batches drained at threshold, followed (if the leftover buffer is
non-empty) by the shutdown drain of that leftover, concatenate to exactly
the appended sequence in arrival order — every appended row reaches the
flush writer through exactly one drain — and a run of exactly `N` appends
from empty is one drain carrying exactly those `N` rows, leaving the buffer
empty immediately after. -/
theorem buffer_rows_conserved (N : Nat) (rows : List Json) :
    (((bufferRun N rows []).1
        ++ (if (bufferRun N rows []).2.isEmpty then [] else [(bufferRun N rows []).2])).join
      = rows)
    ∧ (0 < N → rows.length = N → bufferRun N rows [] = ([rows], [])) := by
  constructor
  · have h := bufferRun_conservation N rows []
    by_cases hfb : (bufferRun N rows []).2.isEmpty
    · rw [List.isEmpty_iff] at hfb
      simp only [if_pos, hfb] at *
      simpa [hfb] using h
    · simp only [if_neg, hfb]
      simpa using h
  · intro hN hlen
    have hne : rows ≠ [] := by
      intro h
      rw [h] at hlen
      simp at hlen
      omega
    simpa using bufferRun_exact N rows [] hne (by simpa using hlen)

/-- C5 witness: threshold 2, two appended rows: one drain with both rows in
order, buffer empty afterwards. -/
theorem buffer_rows_conserved_w :
    (((bufferRun 2 [Json.num 1, Json.num 2] []).1
        ++ (if (bufferRun 2 [Json.num 1, Json.num 2] []).2.isEmpty then []
            else [(bufferRun 2 [Json.num 1, Json.num 2] []).2])).join
      = [Json.num 1, Json.num 2])
    ∧ bufferRun 2 [Json.num 1, Json.num 2] [] = ([[Json.num 1, Json.num 2]], []) :=
  ⟨(buffer_rows_conserved 2 [Json.num 1, Json.num 2]).1,
   (buffer_rows_conserved 2 [Json.num 1, Json.num 2]).2 (by decide) (by decide)⟩

/-- C7: when every upload succeeds, the shutdown drain makes exactly one
flush call per topic whose buffer is non-empty — carrying that buffer's
full contents, in buffer-map order — zero calls for topics with empty
buffers, and then closes the consumer; so the number of calls is the number
of non-empty buffers, and three buffers holding 2, 0 and 5 rows yield
exactly the two calls for the non-empty ones. -/
theorem finalDrain_flushes_nonempty :
    (∀ bufs : Buffers,
      finalDrain (fun _ => true) bufs
        = ((bufs.filter fun p => !p.2.isEmpty).map fun p => (tableName p.1, p.2), true)
      ∧ (finalDrain (fun _ => true) bufs).1.length
          = bufs.countP fun p => !p.2.isEmpty)
    ∧ (∀ (t1 t2 t3 : String) (r1 r2 r3 r4 r5 r6 r7 : Json),
      finalDrain (fun _ => true)
          [(t1, [r1, r2]), (t2, []), (t3, [r3, r4, r5, r6, r7])]
        = ([(tableName t1, [r1, r2]), (tableName t3, [r3, r4, r5, r6, r7])], true)) := by
  have main : ∀ bufs : Buffers,
      finalDrain (fun _ => true) bufs
        = ((bufs.filter fun p => !p.2.isEmpty).map fun p => (tableName p.1, p.2), true) := by
    intro bufs
    induction bufs with
    | nil => rfl
    | cons q rest ih =>
      obtain ⟨k, v⟩ := q
      by_cases hv : v.isEmpty
      · simp [finalDrain, hv, ih]
      · simp only [Bool.not_eq_true] at hv
        simp [finalDrain, hv, ih]
  refine ⟨fun bufs => ⟨main bufs, ?_⟩, fun t1 t2 t3 r1 r2 r3 r4 r5 r6 r7 => ?_⟩
  · rw [main bufs]
    simp [List.countP_eq_length_filter]
  · rw [main [(t1, [r1, r2]), (t2, []), (t3, [r3, r4, r5, r6, r7])]]
    simp

/-- C10: the shutdown drain walks the buffer map sequentially; if the flush
of one topic's non-empty buffer raises, the flush calls completed are
exactly those for the non-empty buffers preceding it in map order — the
remaining topics' buffers are not flushed — and `consumer.close()` is never
reached (the `Bool` component is `false`). -/
theorem finalDrain_abort_on_failure
    (uploadOk : String → Bool) (before post : Buffers) (t : String) (rs : List Json)
    (hok : ∀ p, p ∈ before → p.2 ≠ [] → uploadOk (tableName p.1) = true)
    (hrs : rs ≠ []) (hfail : uploadOk (tableName t) = false) :
    finalDrain uploadOk (before ++ (t, rs) :: post)
      = ((before.filter fun p => !p.2.isEmpty).map fun p => (tableName p.1, p.2), false) := by
  induction before with
  | nil =>
    have hemp := isEmpty_false_of_ne_nil hrs
    simp [finalDrain, hemp, hfail]
  | cons q rest ih =>
    obtain ⟨k, v⟩ := q
    by_cases hv : v.isEmpty
    · have hv' : v = [] := by simpa [List.isEmpty_iff] using hv
      simp [finalDrain, hv, hv',
        ih (fun p hp hne => hok p (by simp [hp]) hne)]
    · simp only [Bool.not_eq_true] at hv
      have hvne : v ≠ [] := by
        intro h
        rw [h] at hv
        simp at hv
      have hkOk : uploadOk (tableName k) = true := hok (k, v) (by simp) hvne
      simp [finalDrain, hv, hkOk, ih (fun p hp hne => hok p (by simp [hp]) hne)]

/-- C10 witness: a concrete drain where the second topic's flush fails:
only the first topic is flushed, the third is not, and the consumer is not
closed. -/
theorem finalDrain_abort_on_failure_w :
    finalDrain (fun n => !(n == "accounts"))
        [("b.s.customers", [Json.num 1]), ("b.s.accounts", [Json.num 2]),
         ("b.s.transactions", [Json.num 3])]
      = ([("customers", [Json.num 1])], false) := by
  have h := finalDrain_abort_on_failure (fun n => !(n == "accounts"))
    [("b.s.customers", [Json.num 1])] [("b.s.transactions", [Json.num 3])]
    "b.s.accounts" [Json.num 2]
    (by intro p hp hne; simp at hp; rw [hp]; decide)
    (by decide) (by decide)
  simpa using h

theorem exceptOkBind {ε α β : Type} (a : α) (f : α → Except ε β) :
    (Except.ok a >>= f : Except ε β) = f a := rfl

theorem exceptPureEq {ε α : Type} (a : α) : (pure a : Except ε α) = Except.ok a := rfl

theorem isEmptyKVs_false_of_ne_nil {l : List (String × Json)} (h : l ≠ []) :
    l.isEmpty = false := by
  cases l with
  | nil => exact absurd rfl h
  | cons a t => rfl

theorem bufGet_bufSet (bufs : Buffers) (t : String) (v : List Json) :
    (bufGet bufs t).isSome → bufGet (bufSet bufs t v) t = some v := by
  induction bufs with
  | nil => simp [bufGet]
  | cons q rest ih =>
    obtain ⟨k, w⟩ := q
    by_cases hk : k = t
    · intro _
      simp [bufGet, bufSet, hk]
    · intro hs
      have hs2 : (bufGet rest t).isSome = true := by simpa [bufGet, hk] using hs
      simpa [bufGet, bufSet, hk] using ih hs2

/-- C2, amended: for every envelope whose payload maps `"after"` to a
non-empty mapping, extraction returns exactly that mapping — structurally
equal, with no coercion or validation — and the loop body appends exactly
it to the buffer of the record's topic (shown below threshold, where the
step only appends).  The empty mapping `{}` is excluded: Python's `if
record:` treats it as falsy, so it is never appended (see the
counterexample). -/
theorem extract_appends_verbatim
    (kvs p row : List (String × Json)) (hp : jsonLookup kvs "payload" = some (Json.obj p))
    (ha : jsonLookup p "after" = some (Json.obj row)) (hrow : row ≠ []) :
    extract (Json.obj kvs) = Except.ok (RowOutcome.hasRow (Json.obj row))
    ∧ ∀ (N : Nat) (bufs : Buffers) (calls : List FlushCall) (topic : String)
        (cur : List Json),
        bufGet bufs topic = some cur → (cur ++ [Json.obj row]).length < N →
        processMessage N (bufs, calls) ⟨topic, Json.obj kvs⟩
          = Except.ok (bufSet bufs topic (cur ++ [Json.obj row]), calls) := by
  have hrowe : row.isEmpty = false := isEmptyKVs_false_of_ne_nil hrow
  have hex : extract (Json.obj kvs) = Except.ok (RowOutcome.hasRow (Json.obj row)) := by
    simp [extract, pyDictGet, hp, ha, exceptOkBind, truthy, hrowe, exceptPureEq]
  refine ⟨hex, ?_⟩
  intro N bufs calls topic cur hcur hlt
  have hset : bufGet (bufSet bufs topic (cur ++ [Json.obj row])) topic
      = some (cur ++ [Json.obj row]) :=
    bufGet_bufSet bufs topic _ (by simp [hcur])
  have hnotN : ¬ N ≤ (cur ++ [Json.obj row]).length := by omega
  have hlt2 : cur.length + 1 < N := by simpa using hlt
  simp [processMessage, hex, exceptOkBind, hcur, hset, hnotN]
  omega

/-- C2, amended, witness: a one-column row is extracted verbatim and
appended to its topic's buffer. -/
theorem extract_appends_verbatim_w :
    extract (Json.obj [("payload", Json.obj [("after", Json.obj [("id", Json.num 7)])])])
      = Except.ok (RowOutcome.hasRow (Json.obj [("id", Json.num 7)]))
    ∧ processMessage 50 ([("b.s.customers", [])], [])
        ⟨"b.s.customers",
          Json.obj [("payload", Json.obj [("after", Json.obj [("id", Json.num 7)])])]⟩
      = Except.ok (bufSet [("b.s.customers", [])] "b.s.customers"
          ([] ++ [Json.obj [("id", Json.num 7)]]), []) :=
  ⟨(extract_appends_verbatim
      [("payload", Json.obj [("after", Json.obj [("id", Json.num 7)])])]
      [("after", Json.obj [("id", Json.num 7)])] [("id", Json.num 7)]
      (by decide) (by decide) (by decide)).1,
   (extract_appends_verbatim
      [("payload", Json.obj [("after", Json.obj [("id", Json.num 7)])])]
      [("after", Json.obj [("id", Json.num 7)])] [("id", Json.num 7)]
      (by decide) (by decide) (by decide)).2
     50 [("b.s.customers", [])] [] "b.s.customers" [] (by decide) (by decide)⟩

/-- C2 counterexample: for the envelope `{"payload": {"after": {}}}` — a
non-null but empty post-image mapping — extraction does not return the
mapping verbatim: `if record:` treats `{}` as falsy and the code yields the
no-row outcome instead, so the row is never appended. -/
theorem extract_empty_mapping_cex :
    extract (Json.obj [("payload", Json.obj [("after", Json.obj [])])])
      = Except.ok RowOutcome.empty
    ∧ extract (Json.obj [("payload", Json.obj [("after", Json.obj [])])])
      ≠ Except.ok (RowOutcome.hasRow (Json.obj [])) :=
  ⟨by decide, by decide⟩

/-- C3 counterexample: for the envelope `{"payload": null}` — the payload
field present but JSON null (a shape the claim covers) — the extraction
step raises: `payload.get("after")` on `None` is an `AttributeError`. -/
theorem extract_null_payload_cex :
    extract (Json.obj [("payload", Json.null)]) = Except.error PyErr.attributeError := by
  decide

/-- C3, amended: extraction never raises when the envelope is a mapping
whose `payload` field is absent or is itself a mapping; absence of fields
is a normal outcome: a missing payload yields the no-row outcome, a payload
without `after` and without `op` yields the no-row outcome, and a payload
without `after` whose `op` is `"d"` yields the delete outcome.  (A payload
that is JSON null or any other non-mapping does raise `AttributeError` —
see the counterexample.) -/
theorem extract_total_on_mapping_payload
    (kvs : List (String × Json))
    (hp : jsonLookup kvs "payload" = none
        ∨ ∃ p, jsonLookup kvs "payload" = some (Json.obj p)) :
    (extract (Json.obj kvs)).isOk = true
    ∧ (jsonLookup kvs "payload" = none →
        extract (Json.obj kvs) = Except.ok RowOutcome.empty)
    ∧ (∀ p, jsonLookup kvs "payload" = some (Json.obj p) →
        jsonLookup p "after" = none → jsonLookup p "op" = none →
        extract (Json.obj kvs) = Except.ok RowOutcome.empty)
    ∧ (∀ p, jsonLookup kvs "payload" = some (Json.obj p) →
        jsonLookup p "after" = none → jsonLookup p "op" = some (Json.str "d") →
        extract (Json.obj kvs) = Except.ok RowOutcome.deleteOp) := by
  refine ⟨?_, ?_, ?_, ?_⟩
  · rcases hp with hp | ⟨p, hp⟩
    · simp only [extract, pyDictGet, hp, Option.getD_none, exceptOkBind]
      rfl
    · simp only [extract, pyDictGet, hp, Option.getD_some, exceptOkBind]
      split
      · rfl
      · split
        · rfl
        · rfl
  · intro hp2
    simp only [extract, pyDictGet, hp2, Option.getD_none, exceptOkBind]
    rfl
  · intro p hp2 ha ho
    simp [extract, pyDictGet, hp2, ha, ho, exceptOkBind, exceptPureEq, truthy]
  · intro p hp2 ha ho
    simp [extract, pyDictGet, hp2, ha, ho, exceptOkBind, exceptPureEq, truthy]

/-- C3, amended, witness: an envelope whose payload is an empty mapping
extracts, without raising, to the no-row outcome. -/
theorem extract_total_on_mapping_payload_w :
    (extract (Json.obj [("payload", Json.obj [])])).isOk = true
    ∧ extract (Json.obj [("payload", Json.obj [])]) = Except.ok RowOutcome.empty := by
  have h := extract_total_on_mapping_payload [("payload", Json.obj [])]
    (Or.inr ⟨[], by decide⟩)
  exact ⟨h.1, h.2.2.1 [] (by decide) (by decide) (by decide)⟩

theorem padDigits_length (w : Nat) : ∀ n : Nat, (padDigits w n).length = w := by
  induction w with
  | zero => intro n; rfl
  | succ w ih => intro n; simp [padDigits, ih]

theorem digitChar_inj {a b : Nat} (ha : a < 10) (hb : b < 10)
    (h : Nat.digitChar a = Nat.digitChar b) : a = b := by
  interval_cases a <;> interval_cases b <;> revert h <;> decide

theorem padDigits_inj (w : Nat) : ∀ n m : Nat, n < 10 ^ w → m < 10 ^ w →
    padDigits w n = padDigits w m → n = m := by
  induction w with
  | zero =>
    intro n m hn hm _
    simp [pow_zero] at hn hm
    omega
  | succ w ih =>
    intro n m hn hm h
    simp only [padDigits] at h
    have hlen : (padDigits w (n / 10)).length = (padDigits w (m / 10)).length := by
      simp [padDigits_length]
    obtain ⟨h1, h2⟩ := List.append_inj h hlen
    have hd : n % 10 = m % 10 :=
      digitChar_inj (Nat.mod_lt _ (by norm_num)) (Nat.mod_lt _ (by norm_num))
        (by simpa using h2)
    have hpow : 10 ^ (w + 1) = 10 ^ w * 10 := pow_succ 10 w
    have hq : n / 10 = m / 10 := ih (n / 10) (m / 10) (by omega) (by omega) h1
    omega

theorem data_mk (l : List Char) : (String.mk l).data = l := rfl

/-- C4: two flushes of the same table on the same day within the same
wall-clock second but at distinct microsecond values (the sub-second
precision recorded by `%f`) compute distinct storage keys
`{table}/date={date}/{table}_{HHMMSSffffff}.parquet`; the timestamp is the
one captured at flush time (line 54). -/
theorem s3Key_unique (table date : String) (h m s f1 f2 : Nat)
    (hf1 : f1 < 1000000) (hf2 : f2 < 1000000) (hne : f1 ≠ f2) :
    s3Key table date h m s f1 ≠ s3Key table date h m s f2 := by
  intro heq
  apply hne
  have hdata := congrArg String.data heq
  simp only [s3Key, timeCode, String.data_append, data_mk, List.append_assoc] at hdata
  replace hdata := List.append_cancel_left hdata
  replace hdata := List.append_cancel_left hdata
  replace hdata := List.append_cancel_left hdata
  replace hdata := List.append_cancel_left hdata
  replace hdata := List.append_cancel_left hdata
  replace hdata := List.append_cancel_left hdata
  replace hdata := List.append_cancel_left hdata
  replace hdata := List.append_cancel_left hdata
  replace hdata := List.append_cancel_left hdata
  have hlen6 : (padDigits 6 f1).length = (padDigits 6 f2).length := by
    simp [padDigits_length]
  have h6 := (List.append_inj hdata hlen6).1
  have hp6 : (10 : Nat) ^ 6 = 1000000 := by norm_num
  exact padDigits_inj 6 f1 f2 (by omega) (by omega) h6

/-- C4 witness: same table, date, hour, minute and second, microseconds 1
vs 2: the keys differ. -/
theorem s3Key_unique_w :
    s3Key "transactions" "2025-10-12" 10 20 30 1
      ≠ s3Key "transactions" "2025-10-12" 10 20 30 2 :=
  s3Key_unique "transactions" "2025-10-12" 10 20 30 1 2
    (by decide) (by decide) (by decide)

/-- C6 counterexample: the loop does not defer threshold flushes to the end
of the poll result.  With threshold 2 and three rows for one topic in a
single poll result, the code flushes mid-batch — after the second record —
sending 2 rows and leaving 1 buffered, while the spec's
process-all-records-then-flush discipline would send one 3-row flush and
leave the buffer empty.  The two disagree at this input. -/
theorem processBatch_mid_batch_flush_cex :
    processBatch 2
        [⟨"b.s.t", Json.obj [("payload", Json.obj [("after", Json.obj [("x", Json.num 1)])])]⟩,
         ⟨"b.s.t", Json.obj [("payload", Json.obj [("after", Json.obj [("x", Json.num 2)])])]⟩,
         ⟨"b.s.t", Json.obj [("payload", Json.obj [("after", Json.obj [("x", Json.num 3)])])]⟩]
        [("b.s.t", [])]
      = Except.ok ([("b.s.t", [Json.obj [("x", Json.num 3)]])],
          [("t", [Json.obj [("x", Json.num 1)], Json.obj [("x", Json.num 2)]])])
    ∧ processBatchSpec 2
        [⟨"b.s.t", Json.obj [("payload", Json.obj [("after", Json.obj [("x", Json.num 1)])])]⟩,
         ⟨"b.s.t", Json.obj [("payload", Json.obj [("after", Json.obj [("x", Json.num 2)])])]⟩,
         ⟨"b.s.t", Json.obj [("payload", Json.obj [("after", Json.obj [("x", Json.num 3)])])]⟩]
        [("b.s.t", [])]
      = Except.ok ([("b.s.t", [])],
          [("t", [Json.obj [("x", Json.num 1)], Json.obj [("x", Json.num 2)],
                  Json.obj [("x", Json.num 3)]])])
    ∧ processBatch 2
        [⟨"b.s.t", Json.obj [("payload", Json.obj [("after", Json.obj [("x", Json.num 1)])])]⟩,
         ⟨"b.s.t", Json.obj [("payload", Json.obj [("after", Json.obj [("x", Json.num 2)])])]⟩,
         ⟨"b.s.t", Json.obj [("payload", Json.obj [("after", Json.obj [("x", Json.num 3)])])]⟩]
        [("b.s.t", [])]
      ≠ processBatchSpec 2
        [⟨"b.s.t", Json.obj [("payload", Json.obj [("after", Json.obj [("x", Json.num 1)])])]⟩,
         ⟨"b.s.t", Json.obj [("payload", Json.obj [("after", Json.obj [("x", Json.num 2)])])]⟩,
         ⟨"b.s.t", Json.obj [("payload", Json.obj [("after", Json.obj [("x", Json.num 3)])])]⟩]
        [("b.s.t", [])] :=
  ⟨by decide, by decide, by decide⟩

/-- C6, amended: the threshold check runs after every record, inside the
message loop: when routing a record's row brings its topic's buffer to
length ≥ N, that buffer is immediately drained — passed whole to the flush
writer and reset — before any remaining record of the poll result is
processed; when the buffer stays below the threshold, processing the record
makes no flush call. -/
theorem processMessage_flush_timing
    (N : Nat) (bufs : Buffers) (calls : List FlushCall) (msg : Msg)
    (r : Json) (cur : List Json)
    (hex : extract msg.value = Except.ok (RowOutcome.hasRow r))
    (hcur : bufGet bufs msg.topic = some cur) :
    (N ≤ (cur ++ [r]).length →
      processMessage N (bufs, calls) msg
        = Except.ok (bufSet (bufSet bufs msg.topic (cur ++ [r])) msg.topic [],
            calls ++ [(tableName msg.topic, cur ++ [r])]))
    ∧ ((cur ++ [r]).length < N →
      processMessage N (bufs, calls) msg
        = Except.ok (bufSet bufs msg.topic (cur ++ [r]), calls)) := by
  have hset : bufGet (bufSet bufs msg.topic (cur ++ [r])) msg.topic = some (cur ++ [r]) :=
    bufGet_bufSet bufs msg.topic _ (by simp [hcur])
  constructor
  · intro hN
    have hN2 : N ≤ cur.length + 1 := by simpa using hN
    simp [processMessage, hex, exceptOkBind, hcur, hset, hN2]
  · intro hlt
    have hlt2 : cur.length + 1 < N := by simpa using hlt
    have hnotN : ¬ N ≤ cur.length + 1 := by omega
    simp [processMessage, hex, exceptOkBind, hcur, hset, hnotN]

/-- C6, amended, witness: threshold 2, a buffer already holding one row:
the very next routed record triggers an immediate flush of both rows. -/
theorem processMessage_flush_timing_w :
    processMessage 2 ([("b.s.t", [Json.num 0])], [])
        ⟨"b.s.t", Json.obj [("payload", Json.obj [("after", Json.obj [("x", Json.num 1)])])]⟩
      = Except.ok
          (bufSet (bufSet [("b.s.t", [Json.num 0])] "b.s.t"
              ([Json.num 0] ++ [Json.obj [("x", Json.num 1)]])) "b.s.t" [],
           [] ++ [(tableName "b.s.t", [Json.num 0] ++ [Json.obj [("x", Json.num 1)]])]) :=
  (processMessage_flush_timing 2 [("b.s.t", [Json.num 0])] []
      ⟨"b.s.t", Json.obj [("payload", Json.obj [("after", Json.obj [("x", Json.num 1)])])]⟩
      (Json.obj [("x", Json.num 1)]) [Json.num 0]
      (by decide) (by decide)).1 (by decide)
